import Mathlib

/-!
Verification of the janus session orchestration core.

The Go source is shallowly embedded in Lean:
* `Message`, `Session` mirror `internal/session/types.go`;
* the session map of `MemorySessionManager` (`internal/session/memory_manager.go`)
  is embedded as an association list `Store` with unique keys, insertion order
  preserved (Go map iteration order is arbitrary; all statements proved about
  the map are order-insensitive or quantify over permutations);
* `time.Time` / `time.Duration` values are embedded as `Int` (nanosecond ticks);
  `now.Sub(t) > d` becomes `now - t > d` on `Int`;
* Go methods that mutate the receiver and return `error` become functions
  `Store → ... → Store × Except String Unit`;
* the external `cursor-agent` subprocess run by `AskQuestion` is embedded as an
  `ExecOutcome` record (exit error, captured stdout/stderr, context state), and
  `encoding/json.Unmarshal` as an abstract parse function parameter;
* for the copy-isolation property the pointer structure of the Go heap
  (`*Session` pointers and `[]Message` backing arrays) is made explicit in a
  small heap model (`Heap`, `SessionObj`, `cloneObj`).
-/

namespace Janus

/-- Message mirrors `session.Message` (types.go): role, content, timestamp. -/
structure Message where
  role : String
  content : String
  timestamp : Int
deriving DecidableEq, Repr

/-- Session mirrors `session.Session` (types.go): id, cursor-agent chat id used
for `--resume`, creation and last-activity timestamps, and the conversation log. -/
structure Session where
  id : String
  cursorChatID : String
  createdAt : Int
  lastActivity : Int
  conversationLog : List Message
deriving DecidableEq, Repr

/-- Clone mirrors `Session.Clone` (types.go): a deep copy of the session,
with the conversation log copied into a fresh backing array.  At the level of
Lean values a deep copy is the identity on the value; the pointer-level content
of `Clone` is verified separately in the heap model below. -/
def Session.clone (s : Session) : Session :=
  { id := s.id
    cursorChatID := s.cursorChatID
    createdAt := s.createdAt
    lastActivity := s.lastActivity
    conversationLog := s.conversationLog }

/-- The `sessions map[string]*Session` field of `MemorySessionManager`,
embedded as an association list with unique keys. -/
abbrev Store := List (String × Session)

/-- Reading `m.sessions[id]` from the Go map. -/
def lookupSession : Store → String → Option Session
  | [], _ => none
  | (k, s) :: rest, id => if k = id then some s else lookupSession rest id

/-- Writing `m.sessions[id] = s` to the Go map: replace the entry if the key is
present, otherwise add it. -/
def insertSession : Store → String → Session → Store
  | [], id, s => [(id, s)]
  | (k, s₀) :: rest, id, s =>
    if k = id then (k, s) :: rest else (k, s₀) :: insertSession rest id s

/-- Updating the session object stored under `id` in place (the Go code mutates
through the `*Session` pointer held in the map). -/
def updateStored (store : Store) (id : String) (f : Session → Session) : Store :=
  store.map (fun p => if p.1 = id then (p.1, f p.2) else p)

/-- The effect of `delete(m.sessions, id)` on the embedded map: drop the entry
stored under that key. -/
def eraseKey : Store → String → Store
  | [], _ => []
  | (k, s) :: rest, id =>
    if k = id then eraseKey rest id else (k, s) :: eraseKey rest id

/-- CreateSession (memory_manager.go): builds a fresh session with the given
generated id, timestamps `now`, empty chat id and empty log, stores it, and
returns a clone.  The uuid generation is embedded as the `sessionID` argument. -/
def CreateSession (store : Store) (sessionID : String) (now : Int) : Store × Session :=
  let session : Session :=
    { id := sessionID
      cursorChatID := ""
      createdAt := now
      lastActivity := now
      conversationLog := [] }
  (insertSession store sessionID session, session.clone)

/-- GetSession (memory_manager.go): returns a clone of the stored session, or
the `session not found` error. -/
def GetSession (store : Store) (id : String) : Except String Session :=
  match lookupSession store id with
  | none => .error ("session not found: " ++ id)
  | some session => .ok session.clone

/-- UpdateActivity (memory_manager.go): sets `LastActivity` to `now`, or fails
with `session not found` leaving the map untouched. -/
def UpdateActivity (store : Store) (id : String) (now : Int) :
    Store × Except String Unit :=
  match lookupSession store id with
  | none => (store, .error ("session not found: " ++ id))
  | some _ => (updateStored store id (fun s => { s with lastActivity := now }), .ok ())

/-- UpdateCursorChatID (memory_manager.go, full variant): sets `CursorChatID`,
or fails with `session not found` leaving the map untouched. -/
def UpdateCursorChatID (store : Store) (id : String) (cursorChatID : String) :
    Store × Except String Unit :=
  match lookupSession store id with
  | none => (store, .error ("session not found: " ++ id))
  | some _ => (updateStored store id (fun s => { s with cursorChatID := cursorChatID }), .ok ())

/-- AddToConversationLog (memory_manager.go, full variant): appends the given
messages to the stored session's log, or fails with `session not found`
leaving the map untouched. -/
def AddToConversationLog (store : Store) (id : String) (messages : List Message) :
    Store × Except String Unit :=
  match lookupSession store id with
  | none => (store, .error ("session not found: " ++ id))
  | some _ =>
    (updateStored store id
       (fun s => { s with conversationLog := s.conversationLog ++ messages }), .ok ())

/-- EndSession (memory_manager.go): deletes the session from the map, or fails
with `session not found` leaving the map untouched. -/
def EndSession (store : Store) (id : String) : Store × Except String Unit :=
  match lookupSession store id with
  | none => (store, .error ("session not found: " ++ id))
  | some _ => (eraseKey store id, .ok ())

/-- GetAllSessions (memory_manager.go): clones of all live sessions. -/
def GetAllSessions (store : Store) : List Session :=
  store.map (fun p => p.2.clone)

/-- CleanupInactiveSessions (memory_manager.go lines 104-114): deletes every
session with `now.Sub(session.LastActivity) > timeout`; the surviving map is
exactly the entries with `¬ (now - lastActivity > timeout)`.  The Go method
declares no results: its entire effect is the new map. -/
def CleanupInactiveSessions (now timeout : Int) (store : Store) : Store :=
  store.filter (fun p => ¬ (now - p.2.lastActivity > timeout))

/-- The number of sessions `CleanupInactiveSessions` deletes at state `store`. -/
def evictedCount (now timeout : Int) (store : Store) : Nat :=
  (store.filter (fun p => now - p.2.lastActivity > timeout)).length

/-- cleanupInactiveSessions of the CleanupService (cleanup.go lines 68-83):
counts sessions before, calls the manager's cleanup, counts after, and reports
`before - after` as the number removed.  Returns that count and the new map. -/
def cleanupServiceSweep (now timeout : Int) (store : Store) : Nat × Store :=
  let sessionsBefore := (GetAllSessions store).length
  let store' := CleanupInactiveSessions now timeout store
  let sessionsAfter := (GetAllSessions store').length
  (sessionsBefore - sessionsAfter, store')

/-- Keys of the store, mirroring the Go map's key set. -/
def keys (store : Store) : List String := store.map Prod.fst

/-! ### Traces of Create / Get / Delete (for C4) -/

/-- One Session Store operation of the C4 trace alphabet: `CreateSession`
(with its generated uuid embedded as the argument), `GetSession`, `EndSession`. -/
inductive SOp where
  | create (id : String)
  | get (id : String)
  | delete (id : String)
deriving DecidableEq, Repr

/-- State transition of one operation on the manager's map.  `GetSession`
reads (and clones) but never changes the map. -/
def applyOp (now : Int) (store : Store) : SOp → Store
  | .create id => (CreateSession store id now).1
  | .get _ => store
  | .delete id => (EndSession store id).1

/-- Replaying a whole trace against the initially empty manager. -/
def runOps (now : Int) (ops : List SOp) : Store :=
  ops.foldl (applyOp now) []

/-- Declarative reading of the claim, by recursion over the trace from the most
recent operation backwards: a session id is live when the most recent create
or delete touching it is a create. -/
def liveInRev (id : String) : List SOp → Bool
  | [] => false
  | .create i :: earlier => if i = id then true else liveInRev id earlier
  | .delete i :: earlier => if i = id then false else liveInRev id earlier
  | .get _ :: earlier => liveInRev id earlier

/-- A session id has been created by an earlier Create and not since deleted. -/
def createdAndNotDeleted (ops : List SOp) (id : String) : Bool :=
  liveInRev id ops.reverse

/-! ### Subprocess Invoker: AskQuestion (memory_manager.go, full variant) -/

/-- CursorAgentResponse mirrors the JSON payload of
`cursor-agent --print --output-format json`. -/
structure CursorAgentResponse where
  rtype : String
  subtype : String
  isError : Bool
  result : String
  sessionID : String
deriving DecidableEq, Repr

/-- The two values `ctx.Err()` can report when a context is done. -/
inductive CtxErr where
  | cancelled
  | deadlineExceeded
deriving DecidableEq, Repr

/-- Observable outcome of one `cmd.Run()` of the external cursor-agent
subprocess: the error returned by `Run` (if any), the captured stdout and
stderr buffers, the state of `ctx.Err()` when checked afterwards, and whether
the subprocess is still alive after the call returns. -/
structure ExecOutcome where
  runErr : Option String
  stdout : String
  stderr : String
  ctxErr : Option CtxErr
  processAliveAfter : Bool
deriving DecidableEq, Repr

/-- Contract of `os/exec.CommandContext` + `cmd.Run` as used by AskQuestion
(modelled from the Go standard library's documented behavior, which is
external to this repository): `Run` waits for the subprocess, so the process
never outlives the call, and if the bound context is done the process is
killed and `Run` reports an error. -/
def CommandContextContract (outcome : ExecOutcome) : Prop :=
  (outcome.ctxErr ≠ none → outcome.runErr ≠ none) ∧
    outcome.processAliveAfter = false

/-- The typed errors AskQuestion can produce, each carrying the diagnostics
the corresponding `fmt.Errorf` in the source attaches:
`cancelled` ← "cursor-agent command cancelled: %w" (wraps `ctx.Err()`);
`processFailed` ← "cursor-agent command failed: %w, stderr: %s" (carries the
captured stderr); `parseFailed` ← "failed to parse cursor-agent response: %w,
output: %s" (carries the captured stdout, not stderr); `agentError` ←
"cursor-agent returned error: %s". -/
inductive AskError where
  | notFound (id : String)
  | cancelled (e : CtxErr)
  | processFailed (errMsg stderr : String)
  | parseFailed (output : String)
  | agentError (msg : String)
deriving DecidableEq, Repr

/-- AskQuestion (memory_manager.go full variant, lines 105-154): looks the
session up, runs cursor-agent bound to the request context, and classifies the
outcome exactly as the source does.  `parse` stands for
`encoding/json.Unmarshal` into `CursorAgentResponse`; `outcome` is the
subprocess run being embedded.  The second component records whether
`cmd.Run` was reached (the subprocess was actually invoked). -/
def AskQuestion (parse : String → Option CursorAgentResponse)
    (store : Store) (id question workspaceDir : String) (outcome : ExecOutcome) :
    Except AskError (String × String) × Bool :=
  match lookupSession store id with
  | none => (.error (.notFound id), false)
  | some _ =>
    match outcome.runErr with
    | some e =>
      match outcome.ctxErr with
      | some ce => (.error (.cancelled ce), true)
      | none => (.error (.processFailed e outcome.stderr), true)
    | none =>
      match parse outcome.stdout with
      | none => (.error (.parseFailed outcome.stdout), true)
      | some response =>
        if response.isError then (.error (.agentError response.result), true)
        else (.ok (response.result, response.sessionID), true)

/-! ### Request Orchestrator: the Ask handler (handlers/session.go) -/

/-- The typed responses the Ask handler can emit (400 / 404 / 408 / 500 / 200
in the HTTP layer). -/
inductive HandlerResult where
  | badRequest (msg : String)
  | notFound (msg : String)
  | requestTimeout (msg : String)
  | serverError (msg : String)
  | ok (answer sessionID : String)
deriving DecidableEq, Repr

/-- True for every non-200 handler response. -/
def isErrorResult : HandlerResult → Bool
  | .ok _ _ => false
  | _ => true

/-- Ask (handlers/session.go): validates the query parameter and request body,
verifies the session exists, invokes AskQuestion, and on success performs the
best-effort updates in source order — UpdateCursorChatID, UpdateActivity,
AddToConversationLog of the user question and the assistant answer — ignoring
their errors.  On AskQuestion failure it responds 408 when the request context
is done and 500 otherwise (the timeout classification of the typed-response
variant of the handler) and performs no store mutation.  `body` is the parsed
request body (`none` = malformed); `now` and `now'` are the two `time.Now()`
readings.  The last component records whether the subprocess was invoked. -/
def Ask (parse : String → Option CursorAgentResponse) (store : Store)
    (sessionID : String) (body : Option String) (workspaceDir : String)
    (outcome : ExecOutcome) (now now' : Int) :
    Store × HandlerResult × Bool :=
  if sessionID = "" then
    (store, .badRequest "session_id query parameter is required", false)
  else
    match body with
    | none =>
      (store, .badRequest "Invalid request body: missing or malformed question field", false)
    | some question =>
      match GetSession store sessionID with
      | .error _ =>
        (store, .notFound "The specified session does not exist or has expired", false)
      | .ok _ =>
        match AskQuestion parse store sessionID question workspaceDir outcome with
        | (.error _, ran) =>
          if outcome.ctxErr ≠ none then
            (store, .requestTimeout "Request to cursor-agent timed out", ran)
          else
            (store, .serverError "Failed to get response from cursor-agent", ran)
        | (.ok (answer, cursorChatID), ran) =>
          let store1 := (UpdateCursorChatID store sessionID cursorChatID).1
          let store2 := (UpdateActivity store1 sessionID now).1
          let messages : List Message :=
            [{ role := "user", content := question, timestamp := now },
             { role := "assistant", content := answer, timestamp := now' }]
          let store3 := (AddToConversationLog store2 sessionID messages).1
          (store3, .ok answer sessionID, ran)

/-- True exactly when the result is a process-failure error carrying the given
stderr text. -/
def carriesProcessFailedStderr :
    Except AskError (String × String) → String → Bool
  | .error (.processFailed _ st), s => st == s
  | _, _ => false

/-! ### Heap model for copy isolation (C3)

The Go store holds `*Session` pointers whose `ConversationLog` field is a
slice backed by a heap array.  To state that mutating a session returned by
`GetSession` cannot change the store, pointers are made explicit: a `Heap`
maps object references to `SessionObj` records (scalar fields inline, the log
held as an array reference) and array references to message lists; the
manager's map becomes `StoreH`, from session ids to object references. -/

/-- A heap reference (Go pointer / slice backing-array identity). -/
abbrev Ref := Nat

/-- A `session.Session` object as laid out on the Go heap: scalar fields
inline, the conversation log held as a pointer to a backing array. -/
structure SessionObj where
  id : String
  cursorChatID : String
  createdAt : Int
  lastActivity : Int
  logRef : Ref
deriving DecidableEq, Repr

/-- Association-list lookup keyed by an arbitrary decidable type. -/
def alookup {κ α : Type} [DecidableEq κ] : List (κ × α) → κ → Option α
  | [], _ => none
  | (k, v) :: rest, key => if k = key then some v else alookup rest key

/-- Association-list in-place update: overwrite the value stored at a key. -/
def aset {κ α : Type} [DecidableEq κ] : List (κ × α) → κ → α → List (κ × α)
  | [], _, _ => []
  | (k, v) :: rest, key, w =>
    if k = key then (k, w) :: aset rest key w else (k, v) :: aset rest key w

/-- The Go heap, restricted to what the session code allocates: session
objects, message arrays, and a bump allocator for fresh references. -/
structure Heap where
  objs : List (Ref × SessionObj)
  arrs : List (Ref × List Message)
  next : Ref
deriving DecidableEq, Repr

/-- Dereferencing a `*Session`. -/
def Heap.getObj (h : Heap) (r : Ref) : Option SessionObj :=
  alookup h.objs r

/-- Reading the contents of a `[]Message` backing array. -/
def Heap.getArr (h : Heap) (r : Ref) : Option (List Message) :=
  alookup h.arrs r

/-- Allocating a fresh `[]Message` backing array (`make` + `copy`). -/
def Heap.allocArr (h : Heap) (l : List Message) : Heap × Ref :=
  ({ h with arrs := (h.next, l) :: h.arrs, next := h.next + 1 }, h.next)

/-- Allocating a fresh session object (`&Session{...}`). -/
def Heap.allocObj (h : Heap) (o : SessionObj) : Heap × Ref :=
  ({ h with objs := (h.next, o) :: h.objs, next := h.next + 1 }, h.next)

/-- Writing a session object through a pointer (field assignments). -/
def Heap.setObj (h : Heap) (r : Ref) (o : SessionObj) : Heap :=
  { h with objs := aset h.objs r o }

/-- Overwriting a `[]Message` backing array's contents in place (an in-place
`append` through a returned slice, the aliasing-dangerous case). -/
def Heap.setArr (h : Heap) (r : Ref) (l : List Message) : Heap :=
  { h with arrs := aset h.arrs r l }

/-- `Session.Clone` (types.go) at the heap level: copy the conversation log
into a freshly allocated backing array, then allocate a fresh session object
whose log field points at that copy; return the pointer to the fresh object. -/
def cloneObj (h : Heap) (o : SessionObj) : Heap × Ref :=
  let contents := (h.getArr o.logRef).getD []
  let ha := h.allocArr contents
  ha.1.allocObj { o with logRef := ha.2 }

/-- The manager's `map[string]*Session` at the heap level. -/
abbrev StoreH := List (String × Ref)

/-- GetSession (memory_manager.go) at the heap level: look the pointer up and
return a clone (a pointer to freshly allocated state). -/
def GetSessionH (h : Heap) (store : StoreH) (id : String) :
    Option (Heap × Ref) :=
  match alookup store id with
  | none => none
  | some r =>
    match h.getObj r with
    | none => none
    | some o => some (cloneObj h o)

/-- GetAllSessions (memory_manager.go lines 90-101) at the heap level: iterate
the map, clone every stored session (each clone allocating a fresh object and
a fresh log-array copy), and return the list of clone pointers. -/
def GetAllSessionsH : Heap → StoreH → Heap × List Ref
  | h, [] => (h, [])
  | h, (_, r) :: rest =>
    match h.getObj r with
    | none => GetAllSessionsH h rest
    | some o =>
      let hc := cloneObj h o
      let tail := GetAllSessionsH hc.1 rest
      (tail.1, hc.2 :: tail.2)

/-- Heap evolution by allocation only: the allocator moved forward and every
previously allocated object and array reads unchanged. -/
def HeapLe (h h' : Heap) : Prop :=
  h.next ≤ h'.next ∧
    (∀ rr, rr < h.next → h'.getObj rr = h.getObj rr) ∧
    (∀ rr, rr < h.next → h'.getArr rr = h.getArr rr)

/-- The value of a session as an observer sees it: scalar fields plus the
conversation log contents read through the heap. -/
structure SessionVal where
  id : String
  cursorChatID : String
  createdAt : Int
  lastActivity : Int
  log : List Message
deriving DecidableEq, Repr

/-- Reading the full session value behind a pointer. -/
def readSession (h : Heap) (r : Ref) : Option SessionVal :=
  (h.getObj r).bind (fun o =>
    (h.getArr o.logRef).map (fun log =>
      ⟨o.id, o.cursorChatID, o.createdAt, o.lastActivity, log⟩))

/-- What a later `GetSession id` observes: the session value currently stored
under `id`. -/
def readThroughStore (h : Heap) (store : StoreH) (id : String) :
    Option SessionVal :=
  (alookup store id).bind (readSession h)

/-- Heap well-formedness: every reference reachable from the store or stored
in the heap was produced by the bump allocator (is below `next`). -/
def HeapWF (h : Heap) (store : StoreH) : Prop :=
  (∀ p ∈ store, p.2 < h.next) ∧
    (∀ q ∈ h.objs, q.1 < h.next ∧ q.2.logRef < h.next) ∧
    (∀ a ∈ h.arrs, a.1 < h.next)

/-- Concrete heap for the C3 witness: one stored session `"a"` at object
reference 0 with an empty log array at reference 1. -/
def heapW : Heap :=
  { objs := [(0, ⟨"a", "", 0, 0, 1⟩)], arrs := [(1, [])], next := 2 }

/-- Concrete store for the C3 witness. -/
def storeW : StoreH := [("a", 0)]

/-- The heap after `GetSessionH heapW storeW "a"`: the clone allocated the
array copy at reference 2 and the fresh session object at reference 3. -/
def heapW' : Heap :=
  { objs := [(3, ⟨"a", "", 0, 0, 2⟩), (0, ⟨"a", "", 0, 0, 1⟩)]
    arrs := [(2, []), (1, [])]
    next := 4 }

/-! ## Theorems -/

/-! ### Association-list lemmas for the value-level store -/

theorem lookupSession_eq_none_of_not_mem (store : Store) (id : String)
    (h : id ∉ keys store) : lookupSession store id = none := by
  induction store with
  | nil => rfl
  | cons p rest ih =>
    simp only [keys, List.map_cons, List.mem_cons, not_or] at h
    simp only [lookupSession]
    rw [if_neg (fun hk => h.1 hk.symm)]
    exact ih (by simpa [keys] using h.2)

theorem keys_filter_subset (p : String × Session → Bool) (store : Store) :
    keys (store.filter p) ⊆ keys store := by
  intro a ha
  simp only [keys, List.mem_map] at ha ⊢
  obtain ⟨q, hq, rfl⟩ := ha
  exact ⟨q, List.mem_of_mem_filter hq, rfl⟩

theorem lookupSession_filter (p : String × Session → Bool) (store : Store)
    (id : String) (hnd : (keys store).Nodup) :
    lookupSession (store.filter p) id =
      (lookupSession store id).bind
        (fun s => if p (id, s) then some s else none) := by
  induction store with
  | nil => rfl
  | cons q rest ih =>
    obtain ⟨k, s₀⟩ := q
    simp only [keys, List.map_cons, List.nodup_cons] at hnd
    rw [List.filter_cons]
    by_cases hk : k = id
    · subst hk
      by_cases hp : p (k, s₀)
      · simp [hp, lookupSession]
      · simp only [Bool.not_eq_true] at hp
        rw [hp]
        simp only [Bool.false_eq_true, if_false]
        have hnone : lookupSession (rest.filter p) k = none := by
          apply lookupSession_eq_none_of_not_mem
          intro hmem
          exact hnd.1 (by simpa [keys] using keys_filter_subset p rest hmem)
        rw [hnone]
        simp [lookupSession, hp]
    · by_cases hp : p (k, s₀)
      · rw [if_pos hp]
        simp only [lookupSession, if_neg hk]
        exact ih hnd.2
      · simp only [Bool.not_eq_true] at hp
        rw [hp]
        simp only [Bool.false_eq_true, if_false]
        rw [ih hnd.2]
        simp only [lookupSession, if_neg hk]

/-! ### C1: exact eviction -/

/-- C1. `CleanupInactiveSessions now d` removes exactly the sessions whose idle
time `now - lastActivity` strictly exceeds `d`: a stored session evicted by
that test is no longer found, every other stored session is still found with
its entire state (the very same `Session` value) untouched, absent ids stay
absent, and the operation is insensitive to insertion order (it maps permuted
stores to permuted stores). -/
theorem evictInactive_exact_and_order_insensitive (now d : Int) (store : Store)
    (hnd : (keys store).Nodup) :
    (∀ id s, lookupSession store id = some s →
       lookupSession (CleanupInactiveSessions now d store) id =
         if now - s.lastActivity > d then none else some s) ∧
    (∀ id, lookupSession store id = none →
       lookupSession (CleanupInactiveSessions now d store) id = none) ∧
    (∀ store' : Store, store.Perm store' →
       (CleanupInactiveSessions now d store).Perm (CleanupInactiveSessions now d store')) := by
  refine ⟨?_, ?_, ?_⟩
  · intro id s hs
    rw [CleanupInactiveSessions, lookupSession_filter _ _ _ hnd, hs]
    by_cases hev : now - s.lastActivity > d
    · simp [hev]
      omega
    · simp [hev]
      omega
  · intro id hid
    rw [CleanupInactiveSessions, lookupSession_filter _ _ _ hnd, hid]
    rfl
  · intro store' hperm
    exact hperm.filter _

/-- Witness for C1 at a concrete two-session store: with `now = 10` and
threshold `3`, the session idle for `7` is evicted and the session idle for `2`
survives unchanged. -/
theorem evictInactive_exact_and_order_insensitive_witness :
    ((keys [("a", ⟨"a", "", 0, 3, []⟩), ("b", ⟨"b", "", 0, 8, []⟩)]).Nodup) ∧
    lookupSession (CleanupInactiveSessions 10 3
        [("a", ⟨"a", "", 0, 3, []⟩), ("b", ⟨"b", "", 0, 8, []⟩)]) "a" = none ∧
    lookupSession (CleanupInactiveSessions 10 3
        [("a", ⟨"a", "", 0, 3, []⟩), ("b", ⟨"b", "", 0, 8, []⟩)]) "b" =
      some ⟨"b", "", 0, 8, []⟩ := by
  have hnd : (keys [("a", (⟨"a", "", 0, 3, []⟩ : Session)),
      ("b", ⟨"b", "", 0, 8, []⟩)]).Nodup := by decide
  have h := evictInactive_exact_and_order_insensitive 10 3
    [("a", ⟨"a", "", 0, 3, []⟩), ("b", ⟨"b", "", 0, 8, []⟩)] hnd
  refine ⟨hnd, ?_, ?_⟩
  · have := h.1 "a" ⟨"a", "", 0, 3, []⟩ (by decide)
    simpa using this
  · have := h.1 "b" ⟨"b", "", 0, 8, []⟩ (by decide)
    simpa using this

/-! ### C2: the eviction operation returns no count -/

/-- C2 counterexample. The claim says the Session Store's eviction operation
returns the number of sessions it removed.  In the source,
`CleanupInactiveSessions(timeout time.Duration)` declares no results (see
interface.go and memory_manager.go): its entire observable return is the new
map state.  Two concrete inputs at `now = 1`, `timeout = 0` — the empty store,
and a store with one stale session — produce the identical return value (the
empty map) while removing different numbers of sessions (0 vs 1), so the
operation's return cannot be (or encode) the number removed. -/
theorem evictInactive_count_not_returned_cex :
    CleanupInactiveSessions 1 0 [] =
      CleanupInactiveSessions 1 0 [("a", ⟨"a", "", 0, 0, []⟩)] ∧
    evictedCount 1 0 [] = 0 ∧
    evictedCount 1 0 [("a", ⟨"a", "", 0, 0, []⟩)] = 1 := by
  refine ⟨?_, rfl, ?_⟩ <;> decide

theorem length_filter_not_add_length_filter {α : Type} (p : α → Bool)
    (l : List α) :
    (l.filter (fun a => !(p a))).length + (l.filter p).length = l.length := by
  induction l with
  | nil => rfl
  | cons a rest ih =>
    by_cases hp : p a
    · simp [List.filter_cons, hp, ← ih]
      omega
    · simp only [Bool.not_eq_true] at hp
      simp [List.filter_cons, hp, ← ih]
      omega

/-- C2 amended. The eviction operation itself returns nothing; the number
removed is recovered by the Cleanup Scheduler (cleanup.go), which counts
sessions before and after the sweep and reports the difference — and for every
input map and idle threshold that reported difference equals the number of
sessions whose idle time strictly exceeds the threshold. -/
theorem cleanupServiceSweep_counts_evicted (now d : Int) (store : Store) :
    (cleanupServiceSweep now d store).1 = evictedCount now d store := by
  have h := length_filter_not_add_length_filter
    (fun p : String × Session => decide (now - p.2.lastActivity > d)) store
  simp only [cleanupServiceSweep, GetAllSessions, List.length_map,
    CleanupInactiveSessions, evictedCount]
  simp only [decide_not] at h ⊢
  omega

/-! ### Insertion and deletion lemmas -/

theorem lookupSession_insertSession (store : Store) (i id : String) (s : Session) :
    lookupSession (insertSession store i s) id =
      if i = id then some s else lookupSession store id := by
  induction store with
  | nil =>
    by_cases h : i = id <;> simp [insertSession, lookupSession, h]
  | cons q rest ih =>
    obtain ⟨k, s₀⟩ := q
    by_cases hk : k = i
    · subst hk
      by_cases hid : k = id
      · subst hid
        simp [insertSession, lookupSession]
      · simp [insertSession, lookupSession, hid, fun h : k = id => hid h]
    · rw [insertSession, if_neg hk]
      by_cases hid : k = id
      · subst hid
        have : ¬ i = k := fun h => hk h.symm
        simp [lookupSession, this]
      · simp [lookupSession, hid, ih]

theorem lookupSession_eraseKey (store : Store) (i id : String) :
    lookupSession (eraseKey store i) id =
      if i = id then none else lookupSession store id := by
  induction store with
  | nil => by_cases h : i = id <;> simp [eraseKey, lookupSession, h]
  | cons q rest ih =>
    obtain ⟨k, s₀⟩ := q
    rw [eraseKey]
    by_cases hk : k = i
    · subst hk
      rw [if_pos rfl, ih]
      by_cases hid : k = id
      · subst hid
        simp
      · simp [lookupSession, hid]
    · rw [if_neg hk]
      by_cases hid : k = id
      · subst hid
        have h2 : ¬ i = k := fun h => hk h.symm
        simp [lookupSession, h2]
      · simp [lookupSession, hid, ih]

theorem lookupSession_EndSession (store : Store) (i id : String) :
    lookupSession (EndSession store i).1 id =
      if i = id then none else lookupSession store id := by
  rw [EndSession]
  cases hl : lookupSession store i with
  | none =>
    by_cases hid : i = id
    · subst hid
      simpa using hl
    · simp [hid]
  | some s => simpa using lookupSession_eraseKey store i id

/-! ### C4: traces of Create / Get / Delete -/

theorem lookup_runOps_isSome (now : Int) (ops : List SOp) (id : String) :
    (lookupSession (runOps now ops) id).isSome = createdAndNotDeleted ops id := by
  induction ops using List.reverseRecOn with
  | nil => rfl
  | append_singleton ops op ih =>
    rw [runOps, List.foldl_append, List.foldl_cons, List.foldl_nil,
      createdAndNotDeleted, List.reverse_append, List.reverse_singleton,
      List.singleton_append]
    cases op with
    | create i =>
      rw [applyOp, CreateSession]
      simp only [lookupSession_insertSession, liveInRev]
      by_cases hid : i = id
      · simp [hid]
      · simp only [hid, if_false]
        exact ih
    | get i =>
      rw [applyOp, liveInRev]
      exact ih
    | delete i =>
      rw [applyOp]
      simp only [lookupSession_EndSession, liveInRev]
      by_cases hid : i = id
      · simp [hid]
      · simp only [hid, if_false]
        exact ih

/-- C4. For every sequence of Create, Get and Delete operations replayed
against the initially empty Session Store, `GetSession id` succeeds (returns a
session) if and only if a session with that id was created by an earlier
Create and has not since been deleted — i.e. the most recent create/delete
event for that id in the trace is a create. -/
theorem get_succeeds_iff_created_and_not_deleted (now : Int) (ops : List SOp)
    (id : String) :
    (∃ s, GetSession (runOps now ops) id = .ok s) ↔
      createdAndNotDeleted ops id = true := by
  rw [← lookup_runOps_isSome now ops id]
  constructor
  · rintro ⟨s, hs⟩
    rw [GetSession] at hs
    cases hl : lookupSession (runOps now ops) id with
    | none =>
      rw [hl] at hs
      exact Except.noConfusion hs
    | some s₀ => rfl
  · intro h
    cases hl : lookupSession (runOps now ops) id with
    | none => rw [hl] at h; cases h
    | some s₀ =>
      refine ⟨s₀.clone, ?_⟩
      rw [GetSession, hl]

/-! ### C10: mutating operations on an absent id -/

/-- C10. Every mutating Session Store operation that takes a session id —
UpdateActivity, UpdateCursorChatID, AddToConversationLog, EndSession — when
called with an id not present in the map, returns the `session not found`
error and leaves the entire store state unchanged. -/
theorem mutating_ops_on_absent_id (store : Store) (id : String) (now : Int)
    (chatID : String) (msgs : List Message)
    (h : lookupSession store id = none) :
    UpdateActivity store id now = (store, .error ("session not found: " ++ id)) ∧
    UpdateCursorChatID store id chatID = (store, .error ("session not found: " ++ id)) ∧
    AddToConversationLog store id msgs = (store, .error ("session not found: " ++ id)) ∧
    EndSession store id = (store, .error ("session not found: " ++ id)) := by
  refine ⟨?_, ?_, ?_, ?_⟩ <;>
    simp [UpdateActivity, UpdateCursorChatID, AddToConversationLog, EndSession, h]

/-- Witness for C10: the four operations called with the absent id `"b"` on a
one-session store all fail and leave the store as it was. -/
theorem mutating_ops_on_absent_id_witness :
    lookupSession [("a", (⟨"a", "", 0, 0, []⟩ : Session))] "b" = none ∧
    UpdateActivity [("a", ⟨"a", "", 0, 0, []⟩)] "b" 5 =
      ([("a", ⟨"a", "", 0, 0, []⟩)], .error ("session not found: " ++ "b")) ∧
    EndSession [("a", ⟨"a", "", 0, 0, []⟩)] "b" =
      ([("a", ⟨"a", "", 0, 0, []⟩)], .error ("session not found: " ++ "b")) := by
  have h : lookupSession [("a", (⟨"a", "", 0, 0, []⟩ : Session))] "b" = none := by
    decide
  have hm := mutating_ops_on_absent_id [("a", ⟨"a", "", 0, 0, []⟩)] "b" 5 "c" [] h
  exact ⟨h, hm.1, hm.2.2.2⟩

/-! ### C5: Ask on an absent session id -/

/-- C5. For every session id not present in the store (with a well-formed
request: non-empty id and parsable body), the Ask handler returns NotFound,
leaves the store untouched, and the subprocess invoker is never reached (no
`cmd.Run` happens on that call). -/
theorem ask_absent_id_not_found_without_invoker
    (parse : String → Option CursorAgentResponse) (store : Store)
    (sessionID question workspaceDir : String) (outcome : ExecOutcome)
    (now now' : Int) (hid : sessionID ≠ "")
    (habsent : lookupSession store sessionID = none) :
    Ask parse store sessionID (some question) workspaceDir outcome now now' =
      (store, .notFound "The specified session does not exist or has expired",
        false) := by
  rw [Ask, if_neg hid]
  simp [GetSession, habsent]

/-- Witness for C5: asking on the empty store with id `"s1"`. -/
theorem ask_absent_id_not_found_without_invoker_witness :
    ("s1" ≠ "") ∧ lookupSession [] "s1" = none ∧
    Ask (fun _ => none) [] "s1" (some "q") "/ws"
        ⟨none, "", "", none, false⟩ 0 0 =
      ([], .notFound "The specified session does not exist or has expired",
        false) := by
  refine ⟨by decide, rfl, ?_⟩
  exact ask_absent_id_not_found_without_invoker (fun _ => none) [] "s1" "q"
    "/ws" ⟨none, "", "", none, false⟩ 0 0 (by decide) rfl

/-! ### C6: Invoker failure leaves the conversation log untouched -/

/-- C6. For every session and question, if the AskQuestion call inside the Ask
handler fails, the handler propagates an error response (never 200) and the
store — in particular the session's conversation log — is left exactly as it
was before the call: none of the post-success updates
(UpdateCursorChatID / UpdateActivity / AddToConversationLog) run. -/
theorem ask_invoker_failure_preserves_store
    (parse : String → Option CursorAgentResponse) (store : Store)
    (sessionID question workspaceDir : String) (outcome : ExecOutcome)
    (now now' : Int) (s : Session) (e : AskError) (hid : sessionID ≠ "")
    (hs : lookupSession store sessionID = some s)
    (herr : (AskQuestion parse store sessionID question workspaceDir outcome).1 =
      .error e) :
    (Ask parse store sessionID (some question) workspaceDir outcome now now').1 =
      store ∧
    isErrorResult
      (Ask parse store sessionID (some question) workspaceDir outcome now now').2.1 =
      true := by
  rw [Ask, if_neg hid]
  rcases hAQ : AskQuestion parse store sessionID question workspaceDir outcome
    with ⟨res, ran⟩
  rw [hAQ] at herr
  have hres : res = Except.error e := herr
  subst hres
  by_cases hctx : outcome.ctxErr = none
  · simp [GetSession, hs, hAQ, hctx, isErrorResult]
  · simp [GetSession, hs, hAQ, hctx, isErrorResult]

/-- Witness for C6: a one-session store and a subprocess run that exits
non-zero; the handler reports an error and the store is unchanged. -/
theorem ask_invoker_failure_preserves_store_witness :
    lookupSession [("s1", (⟨"s1", "", 0, 0, []⟩ : Session))] "s1" =
      some ⟨"s1", "", 0, 0, []⟩ ∧
    (AskQuestion (fun _ => none) [("s1", ⟨"s1", "", 0, 0, []⟩)] "s1" "q" "/ws"
        ⟨some "exit status 1", "", "boom", none, false⟩).1 =
      .error (.processFailed "exit status 1" "boom") ∧
    (Ask (fun _ => none) [("s1", ⟨"s1", "", 0, 0, []⟩)] "s1" (some "q") "/ws"
        ⟨some "exit status 1", "", "boom", none, false⟩ 3 4).1 =
      [("s1", ⟨"s1", "", 0, 0, []⟩)] := by
  refine ⟨rfl, rfl, ?_⟩
  exact (ask_invoker_failure_preserves_store (fun _ => none)
    [("s1", ⟨"s1", "", 0, 0, []⟩)] "s1" "q" "/ws"
    ⟨some "exit status 1", "", "boom", none, false⟩ 3 4
    ⟨"s1", "", 0, 0, []⟩ (.processFailed "exit status 1" "boom")
    (by decide) rfl rfl).1

/-! ### C7: diagnostics carried by AskQuestion failures -/

/-- C7 counterexample. The claim says a non-zero exit **or malformed
structured output** yields ProcessFailed carrying the captured stderr.  At a
concrete run that exits zero with unparsable stdout `"garbage"` and captured
stderr `"boom"`, AskQuestion returns the parse-failure error carrying the
stdout — not a process-failure error carrying stderr. -/
theorem parse_failure_not_processFailed_stderr_cex :
    (AskQuestion (fun _ => none) [("s1", ⟨"s1", "", 0, 0, []⟩)] "s1" "q" "/ws"
        ⟨none, "garbage", "boom", none, false⟩).1 =
      .error (.parseFailed "garbage") ∧
    carriesProcessFailedStderr
      (AskQuestion (fun _ => none) [("s1", ⟨"s1", "", 0, 0, []⟩)] "s1" "q" "/ws"
          ⟨none, "garbage", "boom", none, false⟩).1 "boom" = false := by
  exact ⟨rfl, rfl⟩

/-- C7 amended. With the request context not done: a non-zero exit yields the
process-failure error carrying the captured stderr, while malformed structured
output (exit zero, unparsable stdout) yields the parse-failure error carrying
the captured stdout — the unparsable output itself — for diagnostics. -/
theorem askQuestion_failure_diagnostics
    (parse : String → Option CursorAgentResponse) (store : Store)
    (id question workspaceDir : String) (outcome : ExecOutcome) (s : Session)
    (hs : lookupSession store id = some s) (hctx : outcome.ctxErr = none) :
    (∀ e, outcome.runErr = some e →
      (AskQuestion parse store id question workspaceDir outcome).1 =
        .error (.processFailed e outcome.stderr)) ∧
    (outcome.runErr = none → parse outcome.stdout = none →
      (AskQuestion parse store id question workspaceDir outcome).1 =
        .error (.parseFailed outcome.stdout)) := by
  constructor
  · intro e he
    simp [AskQuestion, hs, he, hctx]
  · intro hrun hparse
    simp [AskQuestion, hs, hrun, hparse]

/-- Witness for the amended C7: a non-zero exit with stderr `"boom"` produces
the process-failure error carrying `"boom"`. -/
theorem askQuestion_failure_diagnostics_witness :
    lookupSession [("s1", (⟨"s1", "", 0, 0, []⟩ : Session))] "s1" =
      some ⟨"s1", "", 0, 0, []⟩ ∧
    (AskQuestion (fun _ => none) [("s1", ⟨"s1", "", 0, 0, []⟩)] "s1" "q" "/ws"
        ⟨some "exit status 1", "", "boom", none, false⟩).1 =
      .error (.processFailed "exit status 1" "boom") := by
  refine ⟨rfl, ?_⟩
  exact (askQuestion_failure_diagnostics (fun _ => none)
    [("s1", ⟨"s1", "", 0, 0, []⟩)] "s1" "q" "/ws"
    ⟨some "exit status 1", "", "boom", none, false⟩
    ⟨"s1", "", 0, 0, []⟩ rfl rfl).1 "exit status 1" rfl

/-! ### C8: cancelled or expired context -/

/-- C8. For every invocation whose bound context is done (cancelled or past
its deadline), under the `os/exec.CommandContext` contract the call returns
the cancellation error — never a success and never the plain process-failure
error — the handler classifies it as a request timeout, and the subprocess is
not left running after the call. -/
theorem askQuestion_cancelled_context
    (parse : String → Option CursorAgentResponse) (store : Store)
    (id question workspaceDir : String) (outcome : ExecOutcome)
    (now now' : Int) (ce : CtxErr) (s : Session) (hid : id ≠ "")
    (hs : lookupSession store id = some s)
    (hcc : CommandContextContract outcome)
    (hctx : outcome.ctxErr = some ce) :
    (AskQuestion parse store id question workspaceDir outcome).1 =
      .error (.cancelled ce) ∧
    (Ask parse store id (some question) workspaceDir outcome now now').2.1 =
      .requestTimeout "Request to cursor-agent timed out" ∧
    outcome.processAliveAfter = false := by
  obtain ⟨hkill, halive⟩ := hcc
  have hrun : outcome.runErr ≠ none := hkill (by simp [hctx])
  obtain ⟨e, he⟩ := Option.ne_none_iff_exists'.mp hrun
  have h1 : (AskQuestion parse store id question workspaceDir outcome).1 =
      .error (.cancelled ce) := by
    simp [AskQuestion, hs, he, hctx]
  refine ⟨h1, ?_, halive⟩
  rw [Ask, if_neg hid]
  have hAQ : AskQuestion parse store id question workspaceDir outcome =
      (.error (.cancelled ce), true) := by
    simp [AskQuestion, hs, he, hctx]
  simp [GetSession, hs, hAQ, hctx]

/-- Witness for C8: a run whose context hit its deadline; the killed process
reports an error and the call is classified as cancelled / request timeout. -/
theorem askQuestion_cancelled_context_witness :
    ("s1" ≠ "") ∧
    lookupSession [("s1", (⟨"s1", "", 0, 0, []⟩ : Session))] "s1" =
      some ⟨"s1", "", 0, 0, []⟩ ∧
    CommandContextContract
      ⟨some "signal: killed", "", "", some .deadlineExceeded, false⟩ ∧
    (AskQuestion (fun _ => none) [("s1", ⟨"s1", "", 0, 0, []⟩)] "s1" "q" "/ws"
        ⟨some "signal: killed", "", "", some .deadlineExceeded, false⟩).1 =
      .error (.cancelled .deadlineExceeded) := by
  have hcc : CommandContextContract
      ⟨some "signal: killed", "", "", some .deadlineExceeded, false⟩ :=
    ⟨fun _ => by simp, rfl⟩
  refine ⟨by decide, rfl, hcc, ?_⟩
  exact (askQuestion_cancelled_context (fun _ => none)
    [("s1", ⟨"s1", "", 0, 0, []⟩)] "s1" "q" "/ws"
    ⟨some "signal: killed", "", "", some .deadlineExceeded, false⟩ 0 0
    .deadlineExceeded ⟨"s1", "", 0, 0, []⟩ (by decide) rfl hcc rfl).1

/-! ### C9: end-to-end start / ask scenario -/

/-- C9. Starting a fresh session (CreateSession with generated id `"sid-1"` at
time 0) and then asking `"hello"` against a stub cursor-agent run whose parsed
payload reports answer `"hi there"` and conversation handle `"handle-1"`
leaves the stored session with conversation log exactly
`[{user, "hello"}, {assistant, "hi there"}]` (in that order) and with its
agent conversation handle equal to `"handle-1"`; the handler answers 200 with
`"hi there"`. -/
theorem start_then_ask_hello_scenario :
    (lookupSession
        (Ask (fun out => if out = "stub-json"
              then some ⟨"result", "success", false, "hi there", "handle-1"⟩
              else none)
          (CreateSession [] "sid-1" 0).1 "sid-1" (some "hello") "/ws"
          ⟨none, "stub-json", "", none, false⟩ 1 2).1 "sid-1",
      (Ask (fun out => if out = "stub-json"
              then some ⟨"result", "success", false, "hi there", "handle-1"⟩
              else none)
          (CreateSession [] "sid-1" 0).1 "sid-1" (some "hello") "/ws"
          ⟨none, "stub-json", "", none, false⟩ 1 2).2.1) =
    (some ⟨"sid-1", "handle-1", 0, 1,
        [⟨"user", "hello", 1⟩, ⟨"assistant", "hi there", 2⟩]⟩,
      .ok "hi there" "sid-1") := by
  rfl

/-! ### Heap-model lemmas and C3 -/

theorem alookup_mem {κ α : Type} [DecidableEq κ] (l : List (κ × α)) (k : κ)
    (v : α) (h : alookup l k = some v) : (k, v) ∈ l := by
  induction l with
  | nil => cases h
  | cons p rest ih =>
    obtain ⟨k₀, w⟩ := p
    rw [alookup] at h
    by_cases hk : k₀ = k
    · subst hk
      rw [if_pos rfl] at h
      injection h with h
      subst h
      exact List.mem_cons_self _ _
    · rw [if_neg hk] at h
      exact List.mem_cons_of_mem _ (ih h)

theorem alookup_aset_ne {κ α : Type} [DecidableEq κ] (l : List (κ × α))
    (k key : κ) (w : α) (hne : k ≠ key) :
    alookup (aset l key w) k = alookup l k := by
  induction l with
  | nil => rfl
  | cons p rest ih =>
    obtain ⟨k₀, v⟩ := p
    rw [aset]
    by_cases hk : k₀ = key
    · subst hk
      rw [if_pos rfl, alookup, alookup, if_neg (fun h => hne h.symm),
        if_neg (fun h => hne h.symm)]
      exact ih
    · rw [if_neg hk, alookup, alookup]
      by_cases hk2 : k₀ = k
      · rw [if_pos hk2, if_pos hk2]
      · rw [if_neg hk2, if_neg hk2]
        exact ih

theorem alookup_cons_ne {κ α : Type} [DecidableEq κ] (l : List (κ × α))
    (k₀ k : κ) (v : α) (hne : k₀ ≠ k) :
    alookup ((k₀, v) :: l) k = alookup l k := by
  rw [alookup, if_neg hne]

theorem readSession_congr (h₁ h₂ : Heap) (r : Ref)
    (hobj : h₁.getObj r = h₂.getObj r)
    (harr : ∀ o, h₂.getObj r = some o →
      h₁.getArr o.logRef = h₂.getArr o.logRef) :
    readSession h₁ r = readSession h₂ r := by
  rw [readSession, readSession, hobj]
  cases ho : h₂.getObj r with
  | none => rfl
  | some o =>
    exact congrArg
      (Option.map (fun log =>
        (⟨o.id, o.cursorChatID, o.createdAt, o.lastActivity, log⟩ : SessionVal)))
      (harr o ho)

/-- Copy isolation of the clone returned by `GetSessionH` (helper for the
claim theorem below): if the heap is well-formed and `GetSession id` returns a
clone pointer `r'`, then mutating the returned session — overwriting any of
its fields through `r'` and overwriting the contents of its conversation-log
backing array — leaves what a later `GetSession` observes for every stored id
exactly as it was before the call. -/
theorem getSessionH_clone_isolated_aux (h : Heap) (store : StoreH) (id : String)
    (h' : Heap) (r' : Ref) (co o' : SessionObj) (L : List Message)
    (hwf : HeapWF h store)
    (hget : GetSessionH h store id = some (h', r'))
    (hco : h'.getObj r' = some co) :
    (∀ id', readThroughStore ((h'.setObj r' o').setArr co.logRef L) store id' =
       readThroughStore h store id') ∧
    (∀ id', readThroughStore h' store id' = readThroughStore h store id') := by
  obtain ⟨hwfS, hwfO, hwfA⟩ := hwf
  rw [GetSessionH] at hget
  split at hget
  next => exact Option.noConfusion hget
  next r hr =>
    split at hget
    next => exact Option.noConfusion hget
    next o ho =>
      injection hget with hget
      have hh' : h' = (cloneObj h o).1 := by rw [hget]
      have hr' : r' = (cloneObj h o).2 := by rw [hget]
      subst hh'
      subst hr'
      have hobjs : (cloneObj h o).1.objs =
          (h.next + 1, { o with logRef := h.next }) :: h.objs := rfl
      have harrs : (cloneObj h o).1.arrs =
          (h.next, (h.getArr o.logRef).getD []) :: h.arrs := rfl
      have hrr : (cloneObj h o).2 = h.next + 1 := rfl
      have hcoEq : co = { o with logRef := h.next } := by
        have h2 : (cloneObj h o).1.getObj (cloneObj h o).2 =
            some { o with logRef := h.next } := by
          show alookup (cloneObj h o).1.objs (cloneObj h o).2 = _
          rw [hrr, hobjs]
          simp [alookup]
        rw [h2] at hco
        injection hco with hco
        exact hco.symm
      have hcoLog : co.logRef = h.next := by rw [hcoEq]
      -- reading any store-reachable session is unchanged by the clone
      -- allocations and by the writes at the fresh references
      have hframe : ∀ rr, rr < h.next →
          readSession (((cloneObj h o).1.setObj (cloneObj h o).2 o').setArr
            co.logRef L) rr = readSession h rr := by
        intro rr hlt
        have hne1 : rr ≠ h.next + 1 := Nat.ne_of_lt (Nat.lt_succ_of_lt hlt)
        have hne2 : h.next + 1 ≠ rr := hne1.symm
        apply readSession_congr
        · show alookup (aset (cloneObj h o).1.objs (cloneObj h o).2 o') rr =
            alookup h.objs rr
          rw [hrr, hobjs]
          rw [alookup_aset_ne _ rr (h.next + 1) o' hne1]
          rw [alookup_cons_ne _ (h.next + 1) rr _ hne2]
        · intro oo hoo
          have hooLog : oo.logRef < h.next :=
            (hwfO _ (alookup_mem _ _ _ hoo)).2
          have hne3 : oo.logRef ≠ h.next := Nat.ne_of_lt hooLog
          have hne4 : h.next ≠ oo.logRef := hne3.symm
          show alookup (aset (cloneObj h o).1.arrs co.logRef L) oo.logRef =
            alookup h.arrs oo.logRef
          rw [hcoLog, harrs]
          rw [alookup_aset_ne _ oo.logRef h.next L hne3]
          rw [alookup_cons_ne _ h.next oo.logRef _ hne4]
      have hframe' : ∀ rr, rr < h.next →
          readSession (cloneObj h o).1 rr = readSession h rr := by
        intro rr hlt
        have hne2 : h.next + 1 ≠ rr :=
          (Nat.ne_of_lt (Nat.lt_succ_of_lt hlt)).symm
        apply readSession_congr
        · show alookup (cloneObj h o).1.objs rr = alookup h.objs rr
          rw [hobjs]
          rw [alookup_cons_ne _ (h.next + 1) rr _ hne2]
        · intro oo hoo
          have hooLog : oo.logRef < h.next :=
            (hwfO _ (alookup_mem _ _ _ hoo)).2
          have hne4 : h.next ≠ oo.logRef := (Nat.ne_of_lt hooLog).symm
          show alookup (cloneObj h o).1.arrs oo.logRef = alookup h.arrs oo.logRef
          rw [harrs]
          rw [alookup_cons_ne _ h.next oo.logRef _ hne4]
      constructor
      · intro id'
        rw [readThroughStore, readThroughStore]
        cases hr2 : alookup store id' with
        | none => rfl
        | some rr =>
          exact hframe rr (hwfS _ (alookup_mem _ _ _ hr2))
      · intro id'
        rw [readThroughStore, readThroughStore]
        cases hr2 : alookup store id' with
        | none => rfl
        | some rr =>
          exact hframe' rr (hwfS _ (alookup_mem _ _ _ hr2))

theorem cloneObj_fst_objs (h : Heap) (o : SessionObj) :
    (cloneObj h o).1.objs =
      (h.next + 1, { o with logRef := h.next }) :: h.objs := rfl

theorem cloneObj_fst_arrs (h : Heap) (o : SessionObj) :
    (cloneObj h o).1.arrs = (h.next, (h.getArr o.logRef).getD []) :: h.arrs := rfl

theorem heapLe_refl (h : Heap) : HeapLe h h :=
  ⟨le_refl _, fun _ _ => rfl, fun _ _ => rfl⟩

theorem heapLe_trans {h₁ h₂ h₃ : Heap} (a : HeapLe h₁ h₂) (b : HeapLe h₂ h₃) :
    HeapLe h₁ h₃ := by
  refine ⟨le_trans a.1 b.1, ?_, ?_⟩
  · intro rr hlt
    exact (b.2.1 rr (lt_of_lt_of_le hlt a.1)).trans (a.2.1 rr hlt)
  · intro rr hlt
    exact (b.2.2 rr (lt_of_lt_of_le hlt a.1)).trans (a.2.2 rr hlt)

theorem heapLe_cloneObj (h : Heap) (o : SessionObj) :
    HeapLe h (cloneObj h o).1 := by
  refine ⟨Nat.le_add_right h.next 2, ?_, ?_⟩
  · intro rr hlt
    show alookup (cloneObj h o).1.objs rr = alookup h.objs rr
    rw [cloneObj_fst_objs,
      alookup_cons_ne _ (h.next + 1) rr _
        (Nat.ne_of_lt (Nat.lt_succ_of_lt hlt)).symm]
  · intro rr hlt
    show alookup (cloneObj h o).1.arrs rr = alookup h.arrs rr
    rw [cloneObj_fst_arrs,
      alookup_cons_ne _ h.next rr _ (Nat.ne_of_lt hlt).symm]

/-- Every clone pointer `GetAllSessionsH` returns is freshly allocated: the
final heap extends the input heap by allocation only, and each returned
reference — and the log-array reference of the object it points to — lies at
or above the input heap's allocation frontier. -/
theorem getAllSessionsH_spec (store₀ : StoreH) : ∀ h : Heap,
    HeapLe h (GetAllSessionsH h store₀).1 ∧
    ∀ r ∈ (GetAllSessionsH h store₀).2,
      h.next ≤ r ∧
      ∃ o, (GetAllSessionsH h store₀).1.getObj r = some o ∧
        h.next ≤ o.logRef := by
  induction store₀ with
  | nil =>
    intro h
    exact ⟨heapLe_refl h, by simp [GetAllSessionsH]⟩
  | cons p rest ih =>
    intro h
    obtain ⟨k, r⟩ := p
    rw [GetAllSessionsH]
    cases ho : h.getObj r with
    | none => exact ih h
    | some o =>
      obtain ⟨ihLe, ihMem⟩ := ih (cloneObj h o).1
      constructor
      · exact heapLe_trans (heapLe_cloneObj h o) ihLe
      · intro r' hr'
        have hr'' : r' ∈ (cloneObj h o).2 ::
            (GetAllSessionsH (cloneObj h o).1 rest).2 := hr'
        rcases List.mem_cons.mp hr'' with heq | hmem
        · subst heq
          refine ⟨Nat.le_succ h.next, { o with logRef := h.next }, ?_, le_refl _⟩
          have h1 : (cloneObj h o).1.getObj (h.next + 1) =
              some { o with logRef := h.next } := by
            show alookup (cloneObj h o).1.objs (h.next + 1) = _
            rw [cloneObj_fst_objs]
            simp [alookup]
          have h2 : (GetAllSessionsH (cloneObj h o).1 rest).1.getObj (h.next + 1) =
              (cloneObj h o).1.getObj (h.next + 1) :=
            ihLe.2.1 (h.next + 1) (Nat.lt_succ_self (h.next + 1))
          exact h2.trans h1
        · obtain ⟨hle2, o₂, hget₂, hlog₂⟩ := ihMem r' hmem
          exact ⟨le_trans (Nat.le_add_right h.next 2) hle2, o₂, hget₂,
            le_trans (Nat.le_add_right h.next 2) hlog₂⟩

/-- C3. Copy isolation of the values returned by `GetSession` and
`GetAllSessions`.  On a well-formed heap: (Get) if `GetSession id` returns a
clone pointer `r'`, mutating the returned session — overwriting any of its
fields through `r'` and overwriting the contents of its conversation-log
backing array — leaves what a later `GetSession` observes for every stored id
exactly as it was before the call; (List) likewise for every clone pointer in
the list `GetAllSessions` returns.  The clones' objects and arrays are freshly
allocated and disjoint from everything the store can reach. -/
theorem returned_session_mutation_isolated (h : Heap) (store : StoreH)
    (hwf : HeapWF h store) :
    (∀ id h' r' co o' L, GetSessionH h store id = some (h', r') →
       h'.getObj r' = some co →
       ∀ id', readThroughStore ((h'.setObj r' o').setArr co.logRef L) store id' =
         readThroughStore h store id') ∧
    (∀ r co o' L, r ∈ (GetAllSessionsH h store).2 →
       (GetAllSessionsH h store).1.getObj r = some co →
       ∀ id', readThroughStore
           (((GetAllSessionsH h store).1.setObj r o').setArr co.logRef L)
           store id' =
         readThroughStore h store id') := by
  constructor
  · intro id h' r' co o' L hget hco id'
    exact (getSessionH_clone_isolated_aux h store id h' r' co o' L hwf hget
      hco).1 id'
  · intro r co o' L hmem hco id'
    obtain ⟨hwfS, hwfO, hwfA⟩ := hwf
    obtain ⟨hLe, hMem⟩ := getAllSessionsH_spec store h
    obtain ⟨hler, o₂, ho₂, hlog₂⟩ := hMem r hmem
    have hcoLog : h.next ≤ co.logRef := by
      rw [hco] at ho₂
      injection ho₂ with ho₂
      rw [← ho₂] at hlog₂
      exact hlog₂
    rw [readThroughStore, readThroughStore]
    cases hr2 : alookup store id' with
    | none => rfl
    | some rr =>
      have hlt : rr < h.next := hwfS _ (alookup_mem _ _ _ hr2)
      have hobjEq :
          ((((GetAllSessionsH h store).1.setObj r o').setArr
            co.logRef L)).getObj rr = h.getObj rr := by
        have step1 :
            ((((GetAllSessionsH h store).1.setObj r o').setArr
              co.logRef L)).getObj rr =
              (GetAllSessionsH h store).1.getObj rr := by
          show alookup (aset (GetAllSessionsH h store).1.objs r o') rr =
            alookup (GetAllSessionsH h store).1.objs rr
          rw [alookup_aset_ne _ rr r o'
            (Nat.ne_of_lt (lt_of_lt_of_le hlt hler))]
        exact step1.trans (hLe.2.1 rr hlt)
      have harrEq : ∀ oo, h.getObj rr = some oo →
          ((((GetAllSessionsH h store).1.setObj r o').setArr
            co.logRef L)).getArr oo.logRef = h.getArr oo.logRef := by
        intro oo hoo
        have hooLog : oo.logRef < h.next :=
          (hwfO _ (alookup_mem _ _ _ hoo)).2
        have step1 :
            ((((GetAllSessionsH h store).1.setObj r o').setArr
              co.logRef L)).getArr oo.logRef =
              (GetAllSessionsH h store).1.getArr oo.logRef := by
          show alookup (aset (GetAllSessionsH h store).1.arrs co.logRef L)
              oo.logRef =
            alookup (GetAllSessionsH h store).1.arrs oo.logRef
          rw [alookup_aset_ne _ oo.logRef co.logRef L
            (Nat.ne_of_lt (lt_of_lt_of_le hooLog hcoLog))]
        exact step1.trans (hLe.2.2 oo.logRef hooLog)
      exact readSession_congr _ _ rr hobjEq harrEq

/-- Witness for C3: on the concrete heap `heapW`, both `GetSessionH` and
`GetAllSessionsH` for session `"a"` allocate the clone at references 2 (array
copy) and 3 (object); overwriting every field of a returned object and the
contents of its log array — once for the Get clone, once for the List clone —
leaves the stored session's observed value untouched. -/
theorem returned_session_mutation_isolated_witness :
    HeapWF heapW storeW ∧
    GetSessionH heapW storeW "a" = some (heapW', 3) ∧
    GetAllSessionsH heapW storeW = (heapW', [3]) ∧
    Heap.getObj heapW' 3 = some ⟨"a", "", 0, 0, 2⟩ ∧
    readThroughStore
        ((heapW'.setObj 3 ⟨"z", "zz", 9, 9, 2⟩).setArr 2 [⟨"user", "x", 7⟩])
        storeW "a" =
      readThroughStore heapW storeW "a" ∧
    readThroughStore
        ((heapW'.setObj 3 ⟨"w", "ww", 8, 8, 2⟩).setArr 2 [⟨"assistant", "y", 9⟩])
        storeW "a" =
      readThroughStore heapW storeW "a" ∧
    readThroughStore heapW storeW "a" = some ⟨"a", "", 0, 0, []⟩ := by
  have hwf : HeapWF heapW storeW := by
    refine ⟨?_, ?_, ?_⟩ <;> decide
  have hth := returned_session_mutation_isolated heapW storeW hwf
  refine ⟨hwf, rfl, rfl, rfl, ?_, ?_, rfl⟩
  · exact hth.1 "a" heapW' 3 ⟨"a", "", 0, 0, 2⟩ ⟨"z", "zz", 9, 9, 2⟩
      [⟨"user", "x", 7⟩] rfl rfl "a"
  · exact hth.2 3 ⟨"a", "", 0, 0, 2⟩ ⟨"w", "ww", 8, 8, 2⟩
      [⟨"assistant", "y", 9⟩] (by decide) rfl "a"

end Janus
